import Mathlib

/-!
Verification development for the `identify-ip` RDAP lookup tool
(`src/identify_ip/idip.py`).

The Python module is shallowly embedded:

* JSON / Python values handled by the code are modelled by the inductive
  type `PyVal` (the values produced by `resp.json()` plus `None`).
* Python functions that can raise become Lean functions returning
  `Except`: the pure data-walking layer (`parse_vcard_array`,
  `parse_entities`) can only raise `TypeError` (unhashable dict key,
  `in` on a non-container, iterating a non-iterable) or
  `AttributeError` (`.get` on a value without that method), captured by
  `DataErr`; the HTTP-facing layer uses `PyErr`, which additionally has
  `ValueError` (from `ipaddress.ip_address`), the JSON decoding error
  raised by `resp.json()` (a `ValueError` subclass in Python), and
  `requests.HTTPError` (from `raise_for_status`).
* The network is an oracle `world : Nat → HttpOutcome` giving the
  outcome of the n-th `_SESSION.get` call made by `get_ip_registrant`;
  each outcome already includes urllib3's transport-level retries,
  which happen inside `_SESSION.get`.  Real time (throttle sleeps, the
  rate-limit sleep and its jitter) is abstracted into a trace of
  `Event`s — except that `time.sleep` of a negative duration raises
  `ValueError` in Python, which is modelled as an error result (a
  negative integral `Retry-After` makes the slept duration negative
  for every jitter value in [0, 0.5]).
* `ipaddress.ip_address` (CPython) is embedded down to its parsing and
  canonical-printing rules for IPv4 and IPv6 strings, on `List Char`.

The recursion of `parse_entities` descends into values fetched out of
dicts (`entity.get("entities")`), which is not structural; it is
written with an explicit, structurally decreasing fuel argument so that
the definition stays kernel-computable.  The wrapper passes
`pySize v + 1` fuel, which strictly dominates the recursion: every
recursive call decreases `pySize` of the value being walked, and the
one fuel unit paid per list element is covered because `pySize` of a
list exceeds the number of its elements.  The fuel-exhaustion branch is
therefore unreachable from the wrapper.
-/

/-- Model of the Python/JSON values the module manipulates. -/
inductive PyVal where
  | none : PyVal
  | bool : Bool → PyVal
  | int : Int → PyVal
  | str : String → PyVal
  | list : List PyVal → PyVal
  | dict : List (PyVal × PyVal) → PyVal

/-- Python truthiness (`bool(v)`): `None`, `False`, `0`, `""`, `[]` and
the empty dict are falsy, everything else is truthy. -/
def pyTruthy : PyVal → Bool
  | .none => false
  | .bool b => b
  | .int n => n != 0
  | .str s => s != ""
  | .list l => !l.isEmpty
  | .dict d => !d.isEmpty

mutual

/-- Structural size of a value; used only to seed the fuel of
`parse_entities`. -/
def pySize : PyVal → Nat
  | .none => 1
  | .bool _ => 1
  | .int _ => 1
  | .str _ => 1
  | .list xs => pySizeList xs + 1
  | .dict xs => pySizeDict xs + 1

/-- Size of a list of values. -/
def pySizeList : List PyVal → Nat
  | [] => 1
  | x :: xs => pySize x + pySizeList xs + 1

/-- Size of the entry list of a dict. -/
def pySizeDict : List (PyVal × PyVal) → Nat
  | [] => 1
  | (k, v) :: xs => pySize k + pySize v + pySizeDict xs + 1

end

mutual

/-- Python `==`.  Numbers compare by value across `bool`/`int`
(`True == 1`), other values compare by constructor.  (Python would
apply the numeric rule inside containers as well, e.g. `[True] == [1]`;
no code path in this module ever compares two containers, so the
structural treatment of containers is harmless.) -/
def pyEq : PyVal → PyVal → Bool
  | .none, .none => true
  | .bool a, .bool b => a == b
  | .bool a, .int b => (if a then (1 : Int) else 0) == b
  | .int a, .bool b => a == (if b then (1 : Int) else 0)
  | .int a, .int b => a == b
  | .str a, .str b => a == b
  | .list a, .list b => pyEqList a b
  | .dict a, .dict b => pyEqDict a b
  | _, _ => false

/-- Elementwise `==` on lists. -/
def pyEqList : List PyVal → List PyVal → Bool
  | [], [] => true
  | x :: xs, y :: ys => pyEq x y && pyEqList xs ys
  | _, _ => false

/-- Entrywise `==` on dict entry lists. -/
def pyEqDict : List (PyVal × PyVal) → List (PyVal × PyVal) → Bool
  | [], [] => true
  | (k, v) :: xs, (k2, v2) :: ys => pyEq k k2 && pyEq v v2 && pyEqDict xs ys
  | _, _ => false

end

/-- Containers (`list`, `dict`) are unhashable in Python; the atoms
used here (`None`, `bool`, `int`, `str`) are hashable. -/
def isHashable : PyVal → Bool
  | .list _ => false
  | .dict _ => false
  | _ => true

/-- Python `dict.get(key)` (default `None`) on the insertion-ordered
association-list model of a `dict`. -/
def dictGet : List (PyVal × PyVal) → PyVal → PyVal
  | [], _ => .none
  | (k, v) :: rest, key => if pyEq k key then v else dictGet rest key

/-- Python `d[key] = value`: overwrite in place if the key is present,
else append. -/
def dictSet : List (PyVal × PyVal) → PyVal → PyVal → List (PyVal × PyVal)
  | [], k, v => [(k, v)]
  | (k2, v2) :: rest, k, v =>
    if pyEq k2 k then (k2, v) :: rest else (k2, v2) :: dictSet rest k v

/-- Python `a or b`: `a` if truthy, else `b`. -/
def pyOr (a b : PyVal) : PyVal := if pyTruthy a then a else b

/-- Exceptions the pure data-walking layer can raise. -/
inductive DataErr where
  | typeError : DataErr
  | attributeError : DataErr
deriving DecidableEq

/-- List-prefix test on characters (helper for substring search). -/
def isPre : List Char → List Char → Bool
  | [], _ => true
  | _ :: _, [] => false
  | a :: as, b :: bs => a == b && isPre as bs

/-- Substring occurrence test (Python `sub in s` for strings). -/
def isInf (pat : List Char) : List Char → Bool
  | [] => pat.isEmpty
  | c :: rest => isPre pat (c :: rest) || isInf pat rest

/-- Python `x in y`: membership for lists, substring for strings, key
containment for dicts; `TypeError` for non-containers. -/
def pyIn (x y : PyVal) : Except DataErr Bool :=
  match y with
  | .list l => .ok (l.any (fun e => pyEq e x))
  | .str s =>
    match x with
    | .str sub => .ok (isInf sub.data s.data)
    | _ => .error .typeError
  | .dict d => .ok (d.any (fun p => pyEq p.1 x))
  | _ => .error .typeError

/-- Python `v.get(key)` attribute access: only dicts have `.get`; on
any other value this raises `AttributeError`. -/
def pyGetE (v : PyVal) (k : String) : Except DataErr PyVal :=
  match v with
  | .dict d => .ok (dictGet d (.str k))
  | _ => .error .attributeError

/-- Python `str(n)` for integers. -/
def intStr (n : Int) : String :=
  if n < 0 then "-" ++ String.mk (Nat.toDigits 10 n.natAbs)
  else String.mk (Nat.toDigits 10 n.natAbs)

mutual

/-- Python `repr`.  Container rendering approximates CPython: strings
are wrapped in single quotes without modelling escaping or quote
choice.  No claim in this development depends on container or quoted
rendering. -/
def pyRepr : PyVal → String
  | .none => "None"
  | .bool true => "True"
  | .bool false => "False"
  | .int n => intStr n
  | .str s => "'" ++ s ++ "'"
  | .list l => "[" ++ pyReprList l ++ "]"
  | .dict d => "\x7b" ++ pyReprDict d ++ "\x7d"

/-- Comma-joined `repr` of list elements. -/
def pyReprList : List PyVal → String
  | [] => ""
  | [x] => pyRepr x
  | x :: rest => pyRepr x ++ ", " ++ pyReprList rest

/-- Comma-joined `repr` of dict entries. -/
def pyReprDict : List (PyVal × PyVal) → String
  | [] => ""
  | [(k, v)] => pyRepr k ++ ": " ++ pyRepr v
  | (k, v) :: rest => pyRepr k ++ ": " ++ pyRepr v ++ ", " ++ pyReprDict rest

end

/-- Python `str(v)` (as used by f-string interpolation and `print`). -/
def pyStr : PyVal → String
  | .str s => s
  | v => pyRepr v

/-!  ## vCard parsing (`parse_vcard_array`, `get_vcard_name`)  -/

/-- Loop body of `parse_vcard_array`: walk the property list, skipping
any property that is not a 4-element list, and store `name → value` in
the result dict.  Python's `result[name] = value` raises `TypeError`
when `name` is unhashable (a list or dict). -/
def vcardProps : List PyVal → List (PyVal × PyVal) → Except DataErr (List (PyVal × PyVal))
  | [], acc => .ok acc
  | p :: rest, acc =>
    match p with
    | .list [name, _params, _valueType, value] =>
        if isHashable name then vcardProps rest (dictSet acc name value)
        else .error .typeError
    | _ => vcardProps rest acc

/-- `parse_vcard_array(vcard_array)`: converts an RDAP vcardArray
(jCard) into a dict.  Shape checks: a non-list, a list whose length is
not 2, a first element different from `"vcard"`, or a non-list second
element all yield the empty dict. -/
def parse_vcard_array (vcard_array : PyVal) : Except DataErr (List (PyVal × PyVal)) :=
  match vcard_array with
  | .list [kind, properties] =>
    if pyEq kind (.str "vcard") then
      match properties with
      | .list props => vcardProps props []
      | _ => .ok []
    else .ok []
  | _ => .ok []

/-- `get_vcard_name(vcard)`: `vcard.get("fn") or vcard.get("org") or
vcard.get("name") or vcard.get("handle")`. -/
def get_vcard_name (vcard : List (PyVal × PyVal)) : PyVal :=
  pyOr (dictGet vcard (.str "fn"))
    (pyOr (dictGet vcard (.str "org"))
      (pyOr (dictGet vcard (.str "name")) (dictGet vcard (.str "handle"))))

/-!  ## Entity resolution (`parse_entities`)  -/

/-- First loop of `parse_entities`: scan the entities of the current
level; for each entity whose `roles` contains `"registrant"` and whose
`vcardArray` is truthy, parse the vCard and return the name if truthy.
Returns `PyVal.none` when the scan finds nothing. -/
def levelScan : List PyVal → Except DataErr PyVal
  | [] => .ok .none
  | entity :: rest =>
    match pyGetE entity "roles" with
    | .error e => .error e
    | .ok rolesRaw =>
      match pyIn (.str "registrant") (pyOr rolesRaw (.list [])) with
      | .error e => .error e
      | .ok true =>
        match pyGetE entity "vcardArray" with
        | .error e => .error e
        | .ok vcard_array =>
          if pyTruthy vcard_array then
            match parse_vcard_array vcard_array with
            | .error e => .error e
            | .ok vcard =>
              let name := get_vcard_name vcard
              if pyTruthy name then .ok name else levelScan rest
          else levelScan rest
      | .ok false => levelScan rest

/-- Fueled body of `parse_entities`.  `.inl v` is a call
`parse_entities(v)`; `.inr items` is the second loop (recurse into each
entity's nested `entities` list, in order, returning the first truthy
result).  A truthy non-list argument is not a list of dicts: iterating
a truthy string or dict hands a str (resp. a hashable key) to `.get`,
raising `AttributeError` at the first element; non-iterables raise
`TypeError`.  Fuel exhaustion (unreachable from the wrapper) abstracts
Python's recursion limit as a `TypeError`-class failure. -/
def peF : Nat → PyVal ⊕ List PyVal → Except DataErr PyVal
  | 0, _ => .error .typeError
  | _fuel+1, .inl entities =>
    if pyTruthy entities = false then .ok .none
    else
      match entities with
      | .list items =>
        match levelScan items with
        | .error e => .error e
        | .ok name =>
          if pyTruthy name then .ok name
          else peF _fuel (.inr items)
      | .str _ => .error .attributeError
      | .dict _ => .error .attributeError
      | _ => .error .typeError
  | _+1, .inr [] => .ok .none
  | fuel+1, .inr (entity :: rest) =>
    match pyGetE entity "entities" with
    | .error e => .error e
    | .ok nestedRaw =>
      let nested := pyOr nestedRaw (.list [])
      if pyTruthy nested then
        match peF fuel (.inl nested) with
        | .error e => .error e
        | .ok name => if pyTruthy name then .ok name else peF fuel (.inr rest)
      else peF fuel (.inr rest)

/-- `parse_entities(entities)`: depth-first search for a registrant
name in RDAP entities. -/
def parse_entities (entities : PyVal) : Except DataErr PyVal :=
  peF (pySize entities + 1) (.inl entities)

/-!  ## HTTP layer (`_retry_after_seconds`, `get_ip_registrant`)  -/

/-- Exceptions visible at the HTTP-facing layer.  `jsonError` is the
decoding error raised by `resp.json()` on a body that is not valid
JSON; in Python it subclasses `ValueError` (and `RequestException`,
but not `HTTPError`).  `data e` wraps an escaping exception of the
data-walking layer. -/
inductive PyErr where
  | valueError : String → PyErr
  | jsonError : PyErr
  | httpError : Nat → PyErr
  | data : DataErr → PyErr
deriving DecidableEq

/-- Outcome of one `_SESSION.get` call (transport-level urllib3
retries included): either a `requests.RequestException` (connection
failure, DNS, TLS, timeout, retries exhausted), or a response with an
HTTP status, an optional `Retry-After` header value, and a body —
`some v` if the body is valid JSON decoding to `v`, `none` if
`resp.json()` would raise. -/
inductive HttpOutcome where
  | exn : HttpOutcome
  | resp : Nat → Option String → Option PyVal → HttpOutcome

/-- Observable effects of `get_ip_registrant`, in order: `_throttle()`
calls, `_SESSION.get` calls, and the 429 rate-limit sleep
(`time.sleep(ra + random.uniform(0, 0.5))`, recorded by its integral
part `ra`). -/
inductive Event where
  | throttle : Event
  | getCall : Event
  | sleepRetryAfter : Int → Event
deriving DecidableEq

/-- Python `int(s)` on a string: optional surrounding whitespace,
optional sign, decimal digits.  (Underscore digit grouping and
non-ASCII digits, which CPython also accepts, are not modelled; no
claim depends on them.) -/
def decDigits? : List Char → Option Nat
  | [] => Option.none
  | l =>
    if l.all (fun c => '0' ≤ c && c ≤ '9') then
      some (l.foldl (fun acc c => acc * 10 + (c.toNat - 48)) 0)
    else Option.none

/-- Strip ASCII whitespace from both ends (model of Python's strip
inside `int(str)`). -/
def stripWS (l : List Char) : List Char :=
  let ws := fun c : Char => c = ' ' || c = '\t' || c = '\n' || c = '\r'
  ((l.dropWhile ws).reverse.dropWhile ws).reverse

/-- Python `int(s)` returning `none` where Python raises
`ValueError`. -/
def pyIntOfString? (s : String) : Option Int :=
  match stripWS s.data with
  | '+' :: ds => (decDigits? ds).map Int.ofNat
  | '-' :: ds => (decDigits? ds).map (fun n => -(n : Int))
  | ds => (decDigits? ds).map Int.ofNat

/-- `_retry_after_seconds(resp)`: read the `Retry-After` header; a
missing or empty header, or one that does not parse as an integer
(e.g. an HTTP date), yields `None`. -/
def retry_after_seconds (ra : Option String) : Option Int :=
  match ra with
  | Option.none => Option.none
  | some s => if s = "" then Option.none else pyIntOfString? s

/-- `resp.raise_for_status()`: raises `requests.HTTPError` exactly for
status codes 400–599. -/
def raise_for_status (status : Nat) : Except PyErr Unit :=
  if 400 ≤ status ∧ status < 600 then .error (.httpError status) else .ok ()

/-- Tail of `get_ip_registrant` after the 429 handling: `resp.json()`
then `data.get("entities") or []` into `parse_entities`. -/
def processBody (body : Option PyVal) : Except PyErr PyVal :=
  match body with
  | Option.none => .error .jsonError
  | some data =>
    match pyGetE data "entities" with
    | .error e => .error (.data e)
    | .ok got => (parse_entities (pyOr got (.list []))).mapError PyErr.data

/-- `raise_for_status` wrapped in `try/except requests.HTTPError:
return None`, then the body processing.  The catch-all error branch is
unreachable (`raise_for_status` only raises `HTTPError`). -/
def handleResponse (status : Nat) (body : Option PyVal) : Except PyErr PyVal :=
  match raise_for_status status with
  | .error (.httpError _) => .ok .none
  | .error e => .error e
  | .ok _ => processBody body

/-- Result of a `get_ip_registrant` run: the returned value (or the
escaping exception) together with the trace of observable effects. -/
structure RunResult where
  result : Except PyErr PyVal
  events : List Event

/-- `get_ip_registrant(ip_str)` over the network oracle `world`.
Throttle, then GET; a `RequestException` returns `None`.  If the
status is 429: read `Retry-After`; if it parsed and is ≤ 60, run
`time.sleep(ra + random.uniform(0, 0.5))` — for a negative `ra` the
duration is negative whatever the jitter (it is at most 0.5), so
`time.sleep` raises `ValueError: sleep length must be non-negative`,
which nothing in the function catches (only `RequestException` and
`HTTPError` are) and which therefore escapes with no second GET; for
`ra ≥ 0` the sleep succeeds, the function re-throttles and issues
exactly one more GET (whose `RequestException` also returns `None`).
A header that is absent, unparseable, or above 60 returns `None`.
Any response that survives goes through `raise_for_status` (4xx/5xx
caught to `None`) and then JSON body processing. -/
def get_ip_registrant (world : Nat → HttpOutcome) : RunResult :=
  match world 0 with
  | .exn => ⟨.ok .none, [.throttle, .getCall]⟩
  | .resp status ra body =>
    if status = 429 then
      match retry_after_seconds ra with
      | some n =>
        if n ≤ 60 then
          if n < 0 then
            ⟨.error (.valueError "sleep length must be non-negative"), [.throttle, .getCall]⟩
          else
            match world 1 with
            | .exn => ⟨.ok .none, [.throttle, .getCall, .sleepRetryAfter n, .throttle, .getCall]⟩
            | .resp s2 _ b2 =>
              ⟨handleResponse s2 b2, [.throttle, .getCall, .sleepRetryAfter n, .throttle, .getCall]⟩
        else ⟨.ok .none, [.throttle, .getCall]⟩
      | Option.none => ⟨.ok .none, [.throttle, .getCall]⟩
    else ⟨handleResponse status body, [.throttle, .getCall]⟩

/-!  ## IP address parsing (`ipaddress.ip_address`, CPython semantics)

`get_ip_version` and `get_ip_info` call `ipaddress.ip_address`, whose
string parsing and canonical printing are embedded below following
CPython's `ipaddress` module (`IPv4Address._ip_int_from_string`,
`IPv6Address._ip_int_from_string`, `_split_scope_id`,
`_string_from_ip_int`, `_compress_hextets`).  -/

/-- Python `s.split(sep)` for a single-character separator, on char
lists; keeps empty pieces, `split` of the empty string is `[[]]`. -/
def splitOnChar (sep : Char) : List Char → List (List Char)
  | [] => [[]]
  | c :: rest =>
    match splitOnChar sep rest with
    | h :: t => if c = sep then [] :: h :: t else (c :: h) :: t
    | [] => [[c]]

/-- Split at the first occurrence of a character (Python
`partition`): `none` when the character does not occur. -/
def splitFirst (sep : Char) : List Char → Option (List Char × List Char)
  | [] => Option.none
  | c :: rest =>
    if c = sep then some ([], rest)
    else (splitFirst sep rest).map (fun p => (c :: p.1, p.2))

/-- `IPv4Address._parse_octet`: nonempty, ASCII decimal digits only,
at most 3 characters, no leading zero, value at most 255. -/
def parseOctet (l : List Char) : Option Nat :=
  match l with
  | [] => Option.none
  | c :: rest =>
    if (c :: rest).all (fun ch => '0' ≤ ch && ch ≤ '9') then
      if (c :: rest).length > 3 then Option.none
      else if c = '0' ∧ rest ≠ [] then Option.none
      else
        let v := (c :: rest).foldl (fun acc ch => acc * 10 + (ch.toNat - 48)) 0
        if v > 255 then Option.none else some v
    else Option.none

/-- `IPv4Address._ip_int_from_string`: exactly four octets separated
by dots. -/
def parseIPv4 (l : List Char) : Option Nat :=
  if l.isEmpty then Option.none
  else
    match splitOnChar '.' l with
    | [a, b, c, d] =>
      match parseOctet a, parseOctet b, parseOctet c, parseOctet d with
      | some x, some y, some z, some w => some (((x * 256 + y) * 256 + z) * 256 + w)
      | _, _, _, _ => Option.none
    | _ => Option.none

/-- `IPv6Address._parse_hextet`: hex digits only, 1–4 characters. -/
def parseHextet (l : List Char) : Option Nat :=
  let hexVal? : Char → Option Nat := fun c =>
    if '0' ≤ c && c ≤ '9' then some (c.toNat - 48)
    else if 'a' ≤ c && c ≤ 'f' then some (c.toNat - 87)
    else if 'A' ≤ c && c ≤ 'F' then some (c.toNat - 55)
    else Option.none
  match l.mapM hexVal? with
  | some ds => if ds.isEmpty ∨ ds.length > 4 then Option.none
               else some (ds.foldl (fun acc d => acc * 16 + d) 0)
  | Option.none => Option.none

/-- Indices of empty parts strictly between the endpoints (the
candidate positions of `::`). -/
def interiorEmpties (parts : List (List Char)) : List Nat :=
  (List.range parts.length).filter
    (fun i => 0 < i ∧ i + 1 < parts.length ∧ parts.getD i [' '] = [])

/-- Fold hextet values into a 128-bit integer with `skipped` zero
groups in the middle. -/
def assembleV6 (hi lo : List Nat) (skipped : Nat) : Nat :=
  let v := hi.foldl (fun acc h => acc * 65536 + h) 0
  let v := v * 65536 ^ skipped
  lo.foldl (fun acc h => acc * 65536 + h) v

/-- `IPv6Address._ip_int_from_string` (after scope-id splitting):
split on `:`, optionally convert a dotted-quad last part into two
hextets, locate at most one `::`, check the endpoint rules, and parse
the hextets. -/
def ipv6IntFromString (addr : List Char) : Option Nat :=
  if addr.isEmpty then Option.none
  else
    let parts0 := splitOnChar ':' addr
    if parts0.length < 3 then Option.none
    else
      let subst : Option (List (List Char)) :=
        match parts0.getLast? with
        | some last =>
          if last.contains '.' then
            match parseIPv4 last with
            | some v4 =>
              some (parts0.dropLast ++ [Nat.toDigits 16 (v4 / 65536), Nat.toDigits 16 (v4 % 65536)])
            | Option.none => Option.none
          else some parts0
        | Option.none => Option.none
      match subst with
      | Option.none => Option.none
      | some parts =>
        if parts.length > 9 then Option.none
        else
          match interiorEmpties parts with
          | [] =>
            if parts.length ≠ 8 then Option.none
            else if parts.headD [] = [] then Option.none
            else if parts.getLastD [] = [] then Option.none
            else
              match parts.mapM parseHextet with
              | some hs => some (assembleV6 hs [] 0)
              | Option.none => Option.none
          | [i] =>
            let partsHi := if parts.headD [' '] = [] then i - 1 else i
            let partsLo := if parts.getLastD [' '] = [] then parts.length - i - 2
                           else parts.length - i - 1
            if parts.headD [' '] = [] ∧ i ≠ 1 then Option.none
            else if parts.getLastD [' '] = [] ∧ parts.length - i - 2 ≠ 0 then Option.none
            else if 8 < partsHi + partsLo + 1 then Option.none
            else
              match (parts.take partsHi).mapM parseHextet,
                    (parts.drop (parts.length - partsLo)).mapM parseHextet with
              | some his, some los => some (assembleV6 his los (8 - (partsHi + partsLo)))
              | _, _ => Option.none
          | _ => Option.none

/-- `IPv6Address._split_scope_id`: an optional `%scope` suffix; the
scope must be nonempty and contain no further `%`. -/
def splitScope (l : List Char) : Option (List Char × Option String) :=
  match splitFirst '%' l with
  | Option.none => some (l, Option.none)
  | some (before, after) =>
    if after.isEmpty ∨ after.contains '%' then Option.none
    else some (before, some (String.mk after))

/-- `IPv6Address(str)` parsing: reject `/`, split the scope id, parse
the address part. -/
def parseIPv6 (l : List Char) : Option (Nat × Option String) :=
  if l.contains '/' then Option.none
  else
    match splitScope l with
    | Option.none => Option.none
    | some (addrPart, scope) =>
      match ipv6IntFromString addrPart with
      | some v => some (v, scope)
      | Option.none => Option.none

/-- A parsed IP address: `IPv4Address` or `IPv6Address` (the latter
with its optional scope id). -/
inductive IPAddr where
  | v4 : Nat → IPAddr
  | v6 : Nat → Option String → IPAddr
deriving DecidableEq

/-- `ipaddress.ip_address(s)`: try IPv4, then IPv6, else raise
`ValueError`. -/
def ip_address (s : String) : Except PyErr IPAddr :=
  match parseIPv4 s.data with
  | some a => .ok (.v4 a)
  | Option.none =>
    match parseIPv6 s.data with
    | some (a, sc) => .ok (.v6 a sc)
    | Option.none =>
      .error (.valueError ("'" ++ s ++ "' does not appear to be an IPv4 or IPv6 address"))

/-- `ip.version`. -/
def ipVersion : IPAddr → Nat
  | .v4 _ => 4
  | .v6 _ _ => 6

/-- `str(IPv4Address)`: dotted quad. -/
def strIPv4 (a : Nat) : String :=
  String.mk (Nat.toDigits 10 (a / 16777216 % 256)) ++ "." ++
  String.mk (Nat.toDigits 10 (a / 65536 % 256)) ++ "." ++
  String.mk (Nat.toDigits 10 (a / 256 % 256)) ++ "." ++
  String.mk (Nat.toDigits 10 (a % 256))

/-- State of CPython's `_compress_hextets` scan:
(current run start, current run length, best run start, best run
length); starts are -1 when no run is open / none has been seen. -/
def bestZeroRun (hx : List Nat) : Int × Nat :=
  let step := fun (st : Int × Nat × Int × Nat) (p : Nat × Nat) =>
    let (dcStart, dcLen, bestStart, bestLen) := st
    if p.2 = 0 then
      let dcStart := if dcStart = -1 then (p.1 : Int) else dcStart
      let dcLen := dcLen + 1
      if dcLen > bestLen then (dcStart, dcLen, dcStart, dcLen)
      else (dcStart, dcLen, bestStart, bestLen)
    else (-1, 0, bestStart, bestLen)
  let r := hx.enum.foldl step ((-1 : Int), 0, (-1 : Int), 0)
  (r.2.2.1, r.2.2.2)

/-- `IPv6Address._compress_hextets` followed by `':'.join`: render the
eight hextets in lowercase hex without padding, replacing the best run
of zeros (of length at least 2) by `::`. -/
def strIPv6Addr (a : Nat) : String :=
  let hx := (List.range 8).map (fun i => a / 65536 ^ (7 - i) % 65536)
  let hxs := hx.map (fun h => String.mk (Nat.toDigits 16 h))
  let (bestStartI, bestLen) := bestZeroRun hx
  if bestLen > 1 then
    let bestStart := bestStartI.toNat
    let bestEnd := bestStart + bestLen
    let hxs := if bestEnd = 8 then hxs ++ [""] else hxs
    let hxs := hxs.take bestStart ++ [""] ++ hxs.drop bestEnd
    let hxs := if bestStart = 0 then [""] ++ hxs else hxs
    String.intercalate ":" hxs
  else String.intercalate ":" hxs

/-- `str(ip)`: the canonical textual form of the parsed address (the
scope id is appended after `%` for IPv6). -/
def ipToString : IPAddr → String
  | .v4 a => strIPv4 a
  | .v6 a Option.none => strIPv6Addr a
  | .v6 a (some sc) => strIPv6Addr a ++ "%" ++ sc

/-!  ## Library surface (`get_ip_version`, `get_ip_info`) and CLI
(`main`)  -/

/-- `get_ip_version(ip_str)`: `ip_address(ip_str).version`; raises
`ValueError` on an invalid address. -/
def get_ip_version (s : String) : Except PyErr Nat :=
  (ip_address s).map ipVersion

/-- Python `str(n)` for the small naturals used in messages. -/
def natStr (n : Nat) : String := String.mk (Nat.toDigits 10 n)

/-- `get_ip_info(ip_str, filt)`: parse the address (raising
`ValueError` on failure, before any lookup), perform the registrant
lookup, then render according to the filter.  The returned pair also
carries the trace of network events ( `[]` when parsing failed, so no
lookup was attempted). -/
def get_ip_info (ip_str : String) (filt : String) (world : Nat → HttpOutcome) :
    Except PyErr PyVal × List Event :=
  match ip_address ip_str with
  | .error e => (.error e, [])
  | .ok ip =>
    let run := get_ip_registrant world
    match run.result with
    | .error e => (.error e, run.events)
    | .ok registrant =>
      if filt = "registrant" then
        (.ok (pyOr registrant (.str ("registrant not found for IP Address " ++ ipToString ip))),
         run.events)
      else if filt = "version" then (.ok (.str (natStr (ipVersion ip))), run.events)
      else
        (.ok (.str (ipToString ip ++ " is an IPv" ++ natStr (ipVersion ip) ++
          " IP Address Registered by '" ++ pyStr registrant ++ "'.")), run.events)

/-- Observable outcome of a `main` call: a return code with the lines
printed to stdout and stderr, or an uncaught exception propagating out
of `main`. -/
inductive MainOutcome where
  | exit : Nat → List String → List String → MainOutcome
  | crash : PyErr → MainOutcome
deriving DecidableEq

/-- Message of an exception as printed by `main` (`print(e, ...)`).
Only the `ValueError` message from `ip_address` is modelled exactly;
the others are representative. -/
def errMsg : PyErr → String
  | .valueError m => m
  | .jsonError => "Expecting value: line 1 column 1 (char 0)"
  | .httpError c => natStr c ++ " Error"
  | .data .typeError => "TypeError"
  | .data .attributeError => "AttributeError"

/-- Is the exception caught by `except ValueError`?  (`jsonError`
subclasses `ValueError` in Python, and that clause comes first.) -/
def isValueError : PyErr → Bool
  | .valueError _ => true
  | .jsonError => true
  | _ => false

/-- Filter selected by the parsed, mutually exclusive CLI flags
(`-r`, `-v`, default `all`). -/
def filtOf (registrantFlag versionFlag : Bool) : String :=
  if registrantFlag then "registrant"
  else if versionFlag then "version" else "all"

/-- `main(argv)` after argument parsing: `registrantFlag` and
`versionFlag` are the parsed `-r`/`-v` flags, `ip_string` the
positional argument.  Success prints the result and returns 0;
`ValueError` prints to stderr and returns 1; `requests.HTTPError`
prints to stderr and returns 2; any other exception propagates. -/
def mainFn (ip_string : String) (registrantFlag versionFlag : Bool)
    (world : Nat → HttpOutcome) : MainOutcome :=
  match (get_ip_info ip_string (filtOf registrantFlag versionFlag) world).1 with
  | .ok out => .exit 0 [pyStr out] []
  | .error e =>
    if isValueError e then .exit 1 [] [errMsg e]
    else
      match e with
      | .httpError c => .exit 2 [] ["RDAP lookup failed: " ++ errMsg (.httpError c)]
      | _ => .crash e


/-!  ## Specification-side notions

The following definitions phrase the spec's vocabulary so that claims
can be compared with the behaviour of the embedded code: an entity
"that would yield a non-empty registrant name" (a candidate), the
candidates of an entity forest at a given depth, and shape predicates
for well-formed inputs.  -/

/-- An entity is a candidate when scanning it alone at the current
level yields a truthy registrant name. -/
def entityCandidate (e : PyVal) : Option PyVal :=
  match levelScan [e] with
  | .ok nm => if pyTruthy nm then some nm else Option.none
  | .error _ => Option.none

/-- The candidates of one level, in list order. -/
def candidatesAtLevel (items : List PyVal) : List PyVal :=
  items.filterMap entityCandidate

/-- Scanning the entity alone raises no exception. -/
def scanSafe (e : PyVal) : Bool :=
  match levelScan [e] with
  | .ok _ => true
  | .error _ => false

/-- The nested `entities` list of an entity (empty when absent or not
a list). -/
def childrenOf (e : PyVal) : List PyVal :=
  match e with
  | .dict d =>
    match dictGet d (.str "entities") with
    | .list l => l
    | _ => []
  | _ => []

/-- Registrant-name candidates of an entity forest at exactly depth
`d` below the given level (`0` = the given level), in left-to-right
order. -/
def candidatesAt : Nat → List PyVal → List PyVal
  | 0, items => candidatesAtLevel items
  | d+1, items => items.foldr (fun e acc => candidatesAt d (childrenOf e) ++ acc) []

/-- Is the value a 2-element list?  (The only vcardArray head shape
that `parse_vcard_array` examines further.) -/
def isTwoList : PyVal → Bool
  | .list [_, _] => true
  | _ => false

/-- Is the value a list? -/
def isListVal : PyVal → Bool
  | .list _ => true
  | _ => false

/-- Is the property a 4-element list (the shape that is parsed rather
than skipped)? -/
def is4Elem : PyVal → Bool
  | .list [_, _, _, _] => true
  | _ => false

/-- A property is benign when, if it is a 4-element list, its name is
hashable — exactly the condition under which `result[name] = value`
cannot raise. -/
def wfPropB : PyVal → Bool
  | .list [name, _, _, _] => isHashable name
  | _ => true

/-- A property either is not a 4-element list or carries a string
name (the shape of every real jCard property). -/
def isStrProp : PyVal → Bool
  | .list [name, _, _, _] =>
    match name with
    | .str _ => true
    | _ => false
  | _ => true

/-- Selector used by `lastVal?`: a 4-element property whose string
name is `key` yields its value. -/
def lastValSel (key : String) : PyVal → Option PyVal
  | .list [.str n, _, _, v] => if n = key then some v else Option.none
  | _ => Option.none

/-- Value of the last 4-element property with string name `key`, if
any (the spec's "last occurrence wins"). -/
def lastVal? (props : List PyVal) (key : String) : Option PyVal :=
  props.reverse.findSome? (lastValSel key)

/-!  ## Concrete fixtures used by witnesses and counterexamples  -/

/-- A vcardArray carrying a single `fn` property. -/
def exVcard (nm : String) : PyVal :=
  .list [.str "vcard", .list [.list [.str "fn", .dict [], .str "text", .str nm]]]

/-- An entity with registrant role and the given formatted name. -/
def exRegistrant (nm : String) : PyVal :=
  .dict [(.str "roles", .list [.str "registrant"]), (.str "vcardArray", exVcard nm)]

/-- An entity with no roles, only nested entities. -/
def exWrap (children : List PyVal) : PyVal :=
  .dict [(.str "entities", .list children)]

/-- An entity forest whose only depth-1 candidate sits under the
second top-level entity while a deeper (depth-2) candidate sits under
the first. -/
def exForest : List PyVal :=
  [exWrap [exWrap [exRegistrant "Deep Org"]], exWrap [exRegistrant "Shallow Org"]]

/-- A network in which every GET raises a `RequestException`. -/
def exnWorld : Nat → HttpOutcome := fun _ => .exn

/-- A `200` response whose body carries a single registrant entity
named "Example Org". -/
def exWorld9 : Nat → HttpOutcome := fun _ =>
  .resp 200 Option.none (some (.dict [(.str "entities", .list [exRegistrant "Example Org"])]))

/-- Number of GET calls in an event trace. -/
def countGets : List Event → Nat
  | [] => 0
  | .getCall :: rest => countGets rest + 1
  | _ :: rest => countGets rest

/-- A network answering every GET with a plain `500`. -/
def c4FailWorld : Nat → HttpOutcome := fun _ => .resp 500 Option.none Option.none

/-- First GET rate-limited with `Retry-After: 2`, second GET fails. -/
def c3World : Nat → HttpOutcome := fun n =>
  match n with
  | 0 => .resp 429 (some "2") Option.none
  | _ => .resp 200 Option.none (some (.dict [(.str "entities", .list [exRegistrant "Example Org"])]))

/-- First GET rate-limited with a negative `Retry-After`. -/
def c3NegWorld : Nat → HttpOutcome := fun n =>
  match n with
  | 0 => .resp 429 (some "-5") Option.none
  | _ => .exn

/-- A `304` (non-2xx, non-4xx/5xx) response carrying a JSON body with
a registrant entity. -/
def c4World : Nat → HttpOutcome := fun _ =>
  .resp 304 Option.none (some (.dict [(.str "entities", .list [exRegistrant "Example Org"])]))


/-!  # Theorems  -/

section LevelScanLemmas

/-- One step of `levelScan` in terms of the single-entity scan. -/
lemma levelScan_cons (e : PyVal) (rest : List PyVal) :
    levelScan (e :: rest) =
      match levelScan [e] with
      | .error er => .error er
      | .ok nm => if pyTruthy nm then .ok nm else levelScan rest := by
  simp only [levelScan]
  repeat' split
  all_goals simp_all [levelScan, pyTruthy]
  all_goals (rename_i heq htr; rw [← heq] at htr; simp at htr)

/-- Inversion of `entityCandidate e = some nm`. -/
lemma entityCandidate_some {e nm : PyVal} (h : entityCandidate e = some nm) :
    levelScan [e] = .ok nm ∧ pyTruthy nm = true := by
  unfold entityCandidate at h
  cases hs : levelScan [e] with
  | error er => rw [hs] at h; exact absurd h (by simp)
  | ok nm0 =>
    rw [hs] at h
    have h2 : (if pyTruthy nm0 = true then some nm0 else (Option.none : Option PyVal))
        = some nm := h
    cases ht : pyTruthy nm0 with
    | false => rw [ht] at h2; exact absurd h2 (by simp)
    | true =>
      rw [ht] at h2
      simp only [if_true, Option.some.injEq] at h2
      subst h2
      exact ⟨rfl, ht⟩

/-- Inversion of `entityCandidate e = none` for a safe entity. -/
lemma entityCandidate_none {e : PyVal} (hsafe : scanSafe e = true)
    (h : entityCandidate e = Option.none) :
    ∃ nm0, levelScan [e] = .ok nm0 ∧ pyTruthy nm0 = false := by
  unfold scanSafe at hsafe
  unfold entityCandidate at h
  cases hs : levelScan [e] with
  | error er => rw [hs] at hsafe; exact absurd hsafe (by simp)
  | ok nm0 =>
    rw [hs] at h
    have h2 : (if pyTruthy nm0 = true then some nm0 else (Option.none : Option PyVal))
        = Option.none := h
    cases ht : pyTruthy nm0 with
    | false => exact ⟨nm0, rfl, ht⟩
    | true => rw [ht] at h2; simp at h2

/-- With no raising entity in the list, `levelScan` returns the first
candidate of the level. -/
lemma levelScan_of_head :
    ∀ (items : List PyVal) (name : PyVal) (rest : List PyVal),
      items.all scanSafe = true → candidatesAtLevel items = name :: rest →
      levelScan items = .ok name ∧ pyTruthy name = true := by
  intro items
  induction items with
  | nil => intro name rest _ hc; exact absurd hc (by simp [candidatesAtLevel])
  | cons e tl ih =>
    intro name rest hsafe hc
    have hse : scanSafe e = true := List.all_eq_true.mp hsafe e (List.mem_cons_self e tl)
    have hstl : tl.all scanSafe = true := by
      apply List.all_eq_true.mpr
      intro x hx
      exact List.all_eq_true.mp hsafe x (List.mem_cons_of_mem e hx)
    rw [levelScan_cons]
    cases he : entityCandidate e with
    | some nm =>
      obtain ⟨hs, ht⟩ := entityCandidate_some he
      have hcand : candidatesAtLevel (e :: tl) = nm :: candidatesAtLevel tl := by
        simp [candidatesAtLevel, List.filterMap_cons, he]
      rw [hcand] at hc
      have hname : nm = name := by
        simp only [List.cons.injEq] at hc
        exact hc.1
      subst hname
      rw [hs]
      show (if pyTruthy nm = true then Except.ok nm else levelScan tl) = .ok nm
        ∧ pyTruthy nm = true
      rw [ht]
      exact ⟨by simp, rfl⟩
    | none =>
      obtain ⟨nm0, hs, ht0⟩ := entityCandidate_none hse he
      have hcand : candidatesAtLevel (e :: tl) = candidatesAtLevel tl := by
        simp [candidatesAtLevel, List.filterMap_cons, he]
      rw [hcand] at hc
      obtain ⟨h1, h2⟩ := ih name rest hstl hc
      rw [hs]
      show (if pyTruthy nm0 = true then Except.ok nm0 else levelScan tl) = .ok name
        ∧ pyTruthy name = true
      rw [ht0]
      exact ⟨by simpa using h1, h2⟩

end LevelScanLemmas

/-- C1 (amended): the resolver prefers the current level over nested
levels, and within the level the first-listed candidate wins: when the
list passed to `parse_entities` has a candidate at its own (top)
level, the first such candidate's name is returned. -/
theorem c1_level_preference (items : List PyVal) (name : PyVal) (rest : List PyVal)
    (hsafe : items.all scanSafe = true)
    (hcand : candidatesAtLevel items = name :: rest) :
    parse_entities (.list items) = .ok name := by
  obtain ⟨hscan, htruthy⟩ := levelScan_of_head items name rest hsafe hcand
  cases items with
  | nil => exact absurd hcand (by simp [candidatesAtLevel])
  | cons i is =>
    unfold parse_entities
    rw [peF]
    have htr : pyTruthy (PyVal.list (i :: is)) = true := by simp [pyTruthy]
    rw [htr]
    show (match levelScan (i :: is) with
      | .error e => Except.error e
      | .ok nm => if pyTruthy nm = true then Except.ok nm
          else peF (pySize (PyVal.list (i :: is))) (.inr (i :: is))) = .ok name
    rw [hscan]
    show (if pyTruthy name = true then Except.ok name
      else peF (pySize (PyVal.list (i :: is))) (.inr (i :: is))) = .ok name
    rw [htruthy]
    simp

/-- C1 counterexample: in `exForest` the shallowest candidate is
"Shallow Org" at depth 1 (there is none at depth 0), yet the resolver
returns the depth-2 name "Deep Org": the search is depth-first, not
shallowest-first. -/
theorem c1_counterexample :
    parse_entities (.list exForest) = .ok (.str "Deep Org")
    ∧ candidatesAt 0 exForest = []
    ∧ candidatesAt 1 exForest = [.str "Shallow Org"]
    ∧ candidatesAt 2 exForest = [.str "Deep Org"]
    ∧ PyVal.str "Deep Org" ≠ PyVal.str "Shallow Org" :=
  ⟨rfl, rfl, rfl, rfl, by simp⟩

/-- C1 witness: a concrete one-level forest whose first candidate is
returned. -/
theorem c1_level_preference_witness :
    [exRegistrant "First Org", exRegistrant "Second Org"].all scanSafe = true
    ∧ candidatesAtLevel [exRegistrant "First Org", exRegistrant "Second Org"]
        = .str "First Org" :: [.str "Second Org"]
    ∧ parse_entities (.list [exRegistrant "First Org", exRegistrant "Second Org"])
        = .ok (.str "First Org") :=
  ⟨by decide, rfl,
    c1_level_preference [exRegistrant "First Org", exRegistrant "Second Org"]
      (.str "First Org") [.str "Second Org"] (by decide) rfl⟩

section ExitCodeLemmas

/-- `raise_for_status` only ever raises `HTTPError`. -/
lemma raise_for_status_error {s : Nat} {e : PyErr} (h : raise_for_status s = .error e) :
    e = .httpError s := by
  unfold raise_for_status at h
  split at h
  · exact (Except.error.injEq .. ▸ h).symm
  · exact absurd h (by simp)

/-- The body-processing tail never produces an `HTTPError`. -/
lemma processBody_ne_http (b : Option PyVal) (c : Nat) :
    processBody b ≠ .error (.httpError c) := by
  unfold processBody
  cases b with
  | none => simp
  | some data =>
    cases hg : pyGetE data "entities" with
    | error e => simp [hg]
    | ok got =>
      simp only [hg]
      cases hp : parse_entities (pyOr got (.list [])) with
      | error d => simp [Except.mapError, hp]
      | ok v => simp [Except.mapError, hp]

/-- `handleResponse` never produces an `HTTPError`: `raise_for_status`
is caught to `None` and the rest delegates to `processBody`. -/
lemma handleResponse_ne_http (s : Nat) (b : Option PyVal) (c : Nat) :
    handleResponse s b ≠ .error (.httpError c) := by
  unfold handleResponse
  cases hrs : raise_for_status s with
  | error e =>
    have he := raise_for_status_error hrs
    subst he
    simp [hrs]
  | ok u => simp [hrs, processBody_ne_http]

/-- `get_ip_registrant` never raises `HTTPError` to its caller. -/
lemma get_ip_registrant_ne_http (w : Nat → HttpOutcome) (c : Nat) :
    (get_ip_registrant w).result ≠ .error (.httpError c) := by
  unfold get_ip_registrant
  cases hw : w 0 with
  | exn => simp
  | resp s ra b =>
    by_cases h429 : s = 429
    · subst h429
      simp only [if_pos rfl]
      cases hra : retry_after_seconds ra with
      | none => simp
      | some n =>
        by_cases hle : n ≤ 60
        · simp only [hra, if_pos hle]
          by_cases hneg : n < 0
          · simp [if_pos hneg]
          · simp only [if_neg hneg]
            cases hw1 : w 1 with
            | exn => simp
            | resp s2 ra2 b2 => simpa using handleResponse_ne_http s2 b2 c
        · simp only [hra, if_neg hle]
          simp
    · simp only [if_neg h429]
      simpa using handleResponse_ne_http s b c

/-- `ip_address` only ever raises `ValueError`. -/
lemma ip_address_error {s : String} {e : PyErr} (h : ip_address s = .error e) :
    ∃ m, e = .valueError m := by
  unfold ip_address at h
  cases h4 : parseIPv4 s.data with
  | some a => rw [h4] at h; exact absurd h (by simp)
  | none =>
    rw [h4] at h
    cases h6 : parseIPv6 s.data with
    | some p => rw [h6] at h; exact absurd h (by simp)
    | none =>
      rw [h6] at h
      simp only [Except.error.injEq] at h
      exact ⟨_, h.symm⟩

/-- `get_ip_info` never raises `HTTPError`. -/
lemma get_ip_info_ne_http (s f : String) (w : Nat → HttpOutcome) (c : Nat) :
    (get_ip_info s f w).1 ≠ .error (.httpError c) := by
  unfold get_ip_info
  cases hip : ip_address s with
  | error e =>
    obtain ⟨m, hm⟩ := ip_address_error hip
    subst hm
    simp
  | ok ip =>
    cases hr : (get_ip_registrant w).result with
    | error e =>
      have := get_ip_registrant_ne_http w c
      rw [hr] at this
      simp only [hr]
      intro hcon
      simp only [Except.error.injEq] at hcon
      exact this (by rw [hcon])
    | ok registrant =>
      simp only [hr]
      repeat' split
      all_goals simp

end ExitCodeLemmas

/-- `mainFn` never returns exit code 2: `get_ip_registrant` catches
every `HTTPError` internally, so the `except requests.HTTPError` arm
is dead code. -/
lemma mainFn_ne_exit2 (ip : String) (r v : Bool) (w : Nat → HttpOutcome)
    (o e : List String) : mainFn ip r v w ≠ .exit 2 o e := by
  intro h
  unfold mainFn at h
  cases hres : (get_ip_info ip (filtOf r v) w).1 with
  | ok out => rw [hres] at h; simp at h
  | error err =>
    rw [hres] at h
    cases err with
    | valueError m => simp [isValueError] at h
    | jsonError => simp [isValueError] at h
    | httpError c => exact get_ip_info_ne_http ip (filtOf r v) w c hres
    | data d => simp [isValueError] at h

/-- C2 counterexample: no argument vector and no network behaviour
makes `main` return exit code 2 — `get_ip_registrant` catches every
`HTTPError` internally, so the `except requests.HTTPError` arm of
`main` is dead code. -/
theorem c2_counterexample :
    ¬ ∃ (ip : String) (r v : Bool) (w : Nat → HttpOutcome) (o e : List String),
      mainFn ip r v w = .exit 2 o e := by
  rintro ⟨ip, r, v, w, o, e, h⟩
  exact mainFn_ne_exit2 ip r v w o e h

/-- C2 (amended): `main` returns 0 with the result on stdout when
`get_ip_info` succeeds, and 1 with the message on stderr when a
`ValueError` escapes (an invalid address — and also a body that is not
valid JSON, whose decode error is a `ValueError` subclass); the
`HTTPError` → exit 2 arm exists but is unreachable, so exit code 2 is
never returned for any argument vector or HTTP outcome. -/
theorem c2_exit_codes (ip : String) (r v : Bool) (w : Nat → HttpOutcome) :
    (∀ out, (get_ip_info ip (filtOf r v) w).1 = .ok out →
      mainFn ip r v w = .exit 0 [pyStr out] [])
    ∧ (∀ e, (get_ip_info ip (filtOf r v) w).1 = .error e → isValueError e = true →
        mainFn ip r v w = .exit 1 [] [errMsg e])
    ∧ (∀ o e, mainFn ip r v w ≠ .exit 2 o e) := by
  refine ⟨?_, ?_, ?_⟩
  · intro out hout
    unfold mainFn
    rw [hout]
  · intro e he hve
    unfold mainFn
    rw [he]
    show (if isValueError e then MainOutcome.exit 1 [] [errMsg e] else _) = _
    rw [hve]
    simp
  · intro o e h
    exact mainFn_ne_exit2 ip r v w o e h

/-- C2 witness: concrete success and invalid-address runs hitting exit
codes 0 and 1, and unreachability of exit 2 for them. -/
theorem c2_exit_codes_witness :
    mainFn "1.2.3.4" false false exnWorld
        = .exit 0 ["1.2.3.4 is an IPv4 IP Address Registered by 'None'."] []
    ∧ mainFn "nonsense" false false exnWorld
        = .exit 1 [] ["'nonsense' does not appear to be an IPv4 or IPv6 address"]
    ∧ ∀ o e, mainFn "1.2.3.4" false false exnWorld ≠ .exit 2 o e :=
  ⟨(c2_exit_codes "1.2.3.4" false false exnWorld).1
      (.str "1.2.3.4 is an IPv4 IP Address Registered by 'None'.") rfl,
   (c2_exit_codes "nonsense" false false exnWorld).2.1
      (.valueError "'nonsense' does not appear to be an IPv4 or IPv6 address") rfl rfl,
   (c2_exit_codes "1.2.3.4" false false exnWorld).2.2⟩

/-- C3 (amended): when the (post-transport-retry) first response is a
429, a `Retry-After` that parses to an integer n with 0 ≤ n ≤ 60
leads to exactly one additional GET, issued after the rate-limit
sleep; a negative parsed value (still ≤ 60) makes `time.sleep` raise
`ValueError` before any second GET, the error escaping to the caller;
a missing/unparseable header or one above 60 means no further attempt
and a `None` result; and no run of `get_ip_registrant` ever makes
more than 2 GET calls. -/
theorem c3_rate_limit_retry :
    (∀ (world : Nat → HttpOutcome) (ra : Option String) (b : Option PyVal),
      world 0 = .resp 429 ra b →
      ((∀ n, retry_after_seconds ra = some n → 0 ≤ n → n ≤ 60 →
          (get_ip_registrant world).events
            = [.throttle, .getCall, .sleepRetryAfter n, .throttle, .getCall])
        ∧ (∀ n, retry_after_seconds ra = some n → n < 0 →
            (get_ip_registrant world).result
              = .error (.valueError "sleep length must be non-negative")
            ∧ (get_ip_registrant world).events = [.throttle, .getCall])
        ∧ (retry_after_seconds ra = Option.none →
            (get_ip_registrant world).events = [.throttle, .getCall]
            ∧ (get_ip_registrant world).result = .ok .none)
        ∧ (∀ n, retry_after_seconds ra = some n → 60 < n →
            (get_ip_registrant world).events = [.throttle, .getCall]
            ∧ (get_ip_registrant world).result = .ok .none)))
    ∧ (∀ world : Nat → HttpOutcome, countGets (get_ip_registrant world).events ≤ 2) := by
  constructor
  · intro world ra b hw
    refine ⟨?_, ?_, ?_, ?_⟩
    · intro n hra hge hle
      simp only [get_ip_registrant, hw, reduceIte, hra, if_pos hle,
        if_neg (by omega : ¬ n < 0)]
      cases hw1 : world 1 <;> rfl
    · intro n hra hneg
      refine ⟨?_, ?_⟩ <;>
        simp only [get_ip_registrant, hw, reduceIte, hra,
          if_pos (by omega : n ≤ 60), if_pos hneg]
    · intro hra
      simp only [get_ip_registrant, hw, reduceIte, hra]
      exact ⟨trivial, trivial⟩
    · intro n hra hgt
      simp only [get_ip_registrant, hw, reduceIte, hra, if_neg (by omega : ¬ n ≤ 60)]
      exact ⟨trivial, trivial⟩
  · intro world
    cases hw : world 0 with
    | exn => simp only [get_ip_registrant, hw]; decide
    | resp s ra b =>
      by_cases h429 : s = 429
      · subst h429
        cases hra : retry_after_seconds ra with
        | none => simp only [get_ip_registrant, hw, reduceIte, hra]; decide
        | some n =>
          by_cases hle : n ≤ 60
          · by_cases hneg : n < 0
            · simp only [get_ip_registrant, hw, reduceIte, hra, if_pos hle, if_pos hneg]
              decide
            · simp only [get_ip_registrant, hw, reduceIte, hra, if_pos hle, if_neg hneg]
              cases hw1 : world 1 <;> simp [countGets]
          · simp only [get_ip_registrant, hw, reduceIte, hra, if_neg hle]
            decide
      · simp only [get_ip_registrant, hw, if_neg h429]
        decide

/-- C3 counterexample: a 429 whose `Retry-After` header is `-5` parses
to the integer -5 ≤ 60, yet no additional GET is issued: the negative
sleep duration makes `time.sleep` raise `ValueError`, which escapes
`get_ip_registrant` (only one GET in the trace, and no result). -/
theorem c3_counterexample :
    retry_after_seconds (some "-5") = some (-5)
    ∧ ((-5 : Int) ≤ 60)
    ∧ (get_ip_registrant c3NegWorld).result
        = .error (.valueError "sleep length must be non-negative")
    ∧ (get_ip_registrant c3NegWorld).events = [.throttle, .getCall]
    ∧ countGets (get_ip_registrant c3NegWorld).events = 1 :=
  ⟨rfl, by decide, rfl, rfl, rfl⟩

/-- C3 witness: a concrete 429 with `Retry-After: 2` produces exactly
the one-retry trace. -/
theorem c3_rate_limit_retry_witness :
    c3World 0 = .resp 429 (some "2") Option.none
    ∧ retry_after_seconds (some "2") = some 2
    ∧ (0 : Int) ≤ 2
    ∧ (2 : Int) ≤ 60
    ∧ (get_ip_registrant c3World).events
        = [.throttle, .getCall, .sleepRetryAfter 2, .throttle, .getCall] :=
  ⟨rfl, rfl, by decide, by decide,
    (c3_rate_limit_retry.1 c3World (some "2") Option.none rfl).1 2 rfl (by decide) (by decide)⟩

/-- C4 (amended): network-level exceptions on either GET yield `None`
rather than an error, and so does any 4xx/5xx status remaining after
the transport retries (and after the optional 429 retry, which runs
when the header parses to an integer n with 0 ≤ n ≤ 60); statuses
outside 400–599 are not treated as failures — the body is parsed as
on success (see the counterexample) — and a negative parsed
`Retry-After` on a 429 makes the rate-limit `time.sleep` raise
`ValueError` out of `get_ip_registrant` instead of yielding `None`. -/
theorem c4_failures_yield_none (world : Nat → HttpOutcome) :
    (world 0 = .exn → (get_ip_registrant world).result = .ok .none)
    ∧ (∀ s ra b, world 0 = .resp s ra b → 400 ≤ s → s < 600 → s ≠ 429 →
        (get_ip_registrant world).result = .ok .none)
    ∧ (∀ ra b, world 0 = .resp 429 ra b →
        ((∀ n, retry_after_seconds ra = some n → 0 ≤ n → n ≤ 60 →
            (world 1 = .exn → (get_ip_registrant world).result = .ok .none)
            ∧ (∀ s2 ra2 b2, world 1 = .resp s2 ra2 b2 → 400 ≤ s2 → s2 < 600 →
                (get_ip_registrant world).result = .ok .none))
          ∧ (∀ n, retry_after_seconds ra = some n → n < 0 →
              (get_ip_registrant world).result
                = .error (.valueError "sleep length must be non-negative"))
          ∧ (retry_after_seconds ra = Option.none →
              (get_ip_registrant world).result = .ok .none)
          ∧ (∀ n, retry_after_seconds ra = some n → 60 < n →
              (get_ip_registrant world).result = .ok .none))) := by
  refine ⟨?_, ?_, ?_⟩
  · intro hw
    simp only [get_ip_registrant, hw]
  · intro s ra b hw h4 h6 hne
    simp only [get_ip_registrant, hw, if_neg hne]
    unfold handleResponse raise_for_status
    rw [if_pos ⟨h4, h6⟩]
  · intro ra b hw
    refine ⟨?_, ?_, ?_, ?_⟩
    · intro n hra hge hle
      constructor
      · intro hw1
        simp only [get_ip_registrant, hw, reduceIte, hra, if_pos hle,
          if_neg (by omega : ¬ n < 0), hw1]
      · intro s2 ra2 b2 hw1 h4 h6
        simp only [get_ip_registrant, hw, reduceIte, hra, if_pos hle,
          if_neg (by omega : ¬ n < 0), hw1]
        unfold handleResponse raise_for_status
        rw [if_pos ⟨h4, h6⟩]
    · intro n hra hneg
      simp only [get_ip_registrant, hw, reduceIte, hra,
        if_pos (by omega : n ≤ 60), if_pos hneg]
    · intro hra
      simp only [get_ip_registrant, hw, reduceIte, hra]
    · intro n hra hgt
      simp only [get_ip_registrant, hw, reduceIte, hra, if_neg (by omega : ¬ n ≤ 60)]

/-- C4 counterexample: a final response with the non-2xx status 304
and a JSON body carrying a registrant is not turned into "no result":
`raise_for_status` only raises for 400–599, so the body is parsed and
the registrant is returned. -/
theorem c4_counterexample :
    (get_ip_registrant c4World).result = .ok (.str "Example Org")
    ∧ (304 < 200 ∨ 300 ≤ 304)
    ∧ Except.ok (PyVal.str "Example Org") ≠ (Except.ok PyVal.none : Except PyErr PyVal) :=
  ⟨rfl, by decide, by simp⟩

/-- C4 witness: a connection failure and a plain 500 both yield the
`None` result. -/
theorem c4_failures_yield_none_witness :
    (get_ip_registrant exnWorld).result = .ok .none
    ∧ (get_ip_registrant c4FailWorld).result = .ok .none :=
  ⟨(c4_failures_yield_none exnWorld).1 rfl,
   (c4_failures_yield_none c4FailWorld).2.1 500 Option.none Option.none rfl
      (by decide) (by decide) (by decide)⟩

section AddressFamilyLemmas

/-- `splitOnChar` never returns the empty list. -/
lemma splitOnChar_ne_nil (sep : Char) (l : List Char) : splitOnChar sep l ≠ [] := by
  induction l with
  | nil => simp [splitOnChar]
  | cons a as ih =>
    obtain ⟨hd, tl, h⟩ : ∃ hd tl, splitOnChar sep as = hd :: tl := by
      cases h : splitOnChar sep as with
      | nil => exact absurd h ih
      | cons hd tl => exact ⟨hd, tl, rfl⟩
    simp only [splitOnChar, h]
    split <;> simp

/-- Every character of the input is the separator or sits in one of
the pieces. -/
lemma splitOnChar_chars (sep : Char) :
    ∀ (l : List Char), ∀ c ∈ l, c = sep ∨ ∃ p ∈ splitOnChar sep l, c ∈ p := by
  intro l
  induction l with
  | nil => intro c hc; cases hc
  | cons a as ih =>
    have hex : ∃ hd tl, splitOnChar sep as = hd :: tl := by
      cases h : splitOnChar sep as with
      | nil => exact absurd h (splitOnChar_ne_nil sep as)
      | cons hd tl => exact ⟨hd, tl, rfl⟩
    obtain ⟨hd, tl, hsplit⟩ := hex
    intro c hc
    obtain hc | hc := List.mem_cons.mp hc
    · subst hc
      by_cases ha : c = sep
      · exact Or.inl ha
      · right
        refine ⟨c :: hd, ?_, List.mem_cons_self c hd⟩
        simp [splitOnChar, hsplit, ha]
    · obtain hsep | ⟨p, hp, hcp⟩ := ih c hc
      · exact Or.inl hsep
      · right
        rw [hsplit] at hp
        by_cases ha : a = sep
        · refine ⟨p, ?_, hcp⟩
          simp only [splitOnChar, hsplit, ha, if_pos rfl]
          exact List.mem_cons_of_mem _ hp
        · obtain hp | hp := List.mem_cons.mp hp
          · subst hp
            refine ⟨a :: p, ?_, List.mem_cons_of_mem a hcp⟩
            simp [splitOnChar, hsplit, ha]
          · refine ⟨p, ?_, hcp⟩
            simp only [splitOnChar, hsplit]
            rw [if_neg ha]
            exact List.mem_cons_of_mem _ hp

/-- A successfully parsed octet consists of decimal digits only. -/
lemma parseOctet_digits {l : List Char} (h : (parseOctet l).isSome = true) :
    ∀ c ∈ l, '0' ≤ c ∧ c ≤ '9' := by
  intro c hc
  cases l with
  | nil => cases hc
  | cons a as =>
    simp only [parseOctet] at h
    cases hall : (a :: as).all (fun ch => decide ('0' ≤ ch) && decide (ch ≤ '9')) with
    | false => rw [hall] at h; simp at h
    | true =>
      have := List.all_eq_true.mp hall c hc
      simp only [Bool.and_eq_true, decide_eq_true_eq] at this
      exact this

/-- Shape of a successful IPv4 parse: exactly four octets. -/
lemma parseIPv4_parts {l : List Char} (h : (parseIPv4 l).isSome = true) :
    ∃ a b c d, splitOnChar '.' l = [a, b, c, d]
      ∧ (parseOctet a).isSome = true ∧ (parseOctet b).isSome = true
      ∧ (parseOctet c).isSome = true ∧ (parseOctet d).isSome = true := by
  unfold parseIPv4 at h
  by_cases hemp : l.isEmpty
  · rw [if_pos hemp] at h; simp at h
  · rw [if_neg hemp] at h
    rcases hsp : splitOnChar '.' l with _ | ⟨a, _ | ⟨b, _ | ⟨c, _ | ⟨d, _ | e⟩⟩⟩⟩ <;>
      rw [hsp] at h
    · simp at h
    · simp at h
    · simp at h
    · simp at h
    · have h2 : (match parseOctet a, parseOctet b, parseOctet c, parseOctet d with
          | some x, some y, some z, some w => some (((x * 256 + y) * 256 + z) * 256 + w)
          | _, _, _, _ => (Option.none : Option Nat)).isSome = true := h
      cases hA : parseOctet a with
      | none => rw [hA] at h2; simp at h2
      | some xa =>
        cases hB : parseOctet b with
        | none => rw [hA, hB] at h2; simp at h2
        | some xb =>
          cases hC : parseOctet c with
          | none => rw [hA, hB, hC] at h2; simp at h2
          | some xc =>
            cases hD : parseOctet d with
            | none => rw [hA, hB, hC, hD] at h2; simp at h2
            | some xd =>
              exact ⟨a, b, c, d, rfl, by simp [hA], by simp [hB], by simp [hC], by simp [hD]⟩
    · simp at h

/-- Every character of a valid IPv4 string is a dot or a decimal
digit. -/
lemma parseIPv4_chars {l : List Char} (h : (parseIPv4 l).isSome = true) :
    ∀ c ∈ l, c = '.' ∨ ('0' ≤ c ∧ c ≤ '9') := by
  intro c hc
  obtain ⟨a, b, c4, d, hsp, ha, hb, hc4, hd⟩ := parseIPv4_parts h
  obtain hdot | ⟨p, hp, hcp⟩ := splitOnChar_chars '.' l c hc
  · exact Or.inl hdot
  · right
    rw [hsp] at hp
    simp only [List.mem_cons, List.not_mem_nil, or_false] at hp
    rcases hp with rfl | rfl | rfl | rfl
    · exact parseOctet_digits ha c hcp
    · exact parseOctet_digits hb c hcp
    · exact parseOctet_digits hc4 c hcp
    · exact parseOctet_digits hd c hcp

/-- No character of a valid IPv4 string is `:`, `%` or `/`. -/
lemma parseIPv4_no_specials {l : List Char} (h : (parseIPv4 l).isSome = true) :
    ∀ c ∈ l, c ≠ ':' ∧ c ≠ '%' ∧ c ≠ '/' := by
  intro c hc
  obtain hdot | hdig := parseIPv4_chars h c hc
  · subst hdot
    exact ⟨by decide, by decide, by decide⟩
  · refine ⟨?_, ?_, ?_⟩
    · intro hcon; subst hcon; exact absurd hdig (by decide)
    · intro hcon; subst hcon; exact absurd hdig (by decide)
    · intro hcon; subst hcon; exact absurd hdig (by decide)

/-- `splitFirst` finds nothing when the separator does not occur. -/
lemma splitFirst_none {sep : Char} :
    ∀ {l : List Char}, (∀ c ∈ l, c ≠ sep) → splitFirst sep l = Option.none := by
  intro l
  induction l with
  | nil => intro _; rfl
  | cons a as ih =>
    intro hno
    have ha : a ≠ sep := hno a (List.mem_cons_self a as)
    simp only [splitFirst, if_neg ha]
    rw [ih (fun c hc => hno c (List.mem_cons_of_mem a hc))]
    rfl

/-- `splitOnChar` yields a single piece when the separator does not
occur. -/
lemma splitOnChar_single {sep : Char} :
    ∀ {l : List Char}, (∀ c ∈ l, c ≠ sep) → splitOnChar sep l = [l] := by
  intro l
  induction l with
  | nil => intro _; rfl
  | cons a as ih =>
    intro hno
    have ha : a ≠ sep := hno a (List.mem_cons_self a as)
    simp only [splitOnChar]
    rw [ih (fun c hc => hno c (List.mem_cons_of_mem a hc))]
    simp [ha]

/-- `contains` is false when no member equals the sought character. -/
lemma contains_eq_false {l : List Char} {ch : Char} (h : ∀ c ∈ l, c ≠ ch) :
    l.contains ch = false := by
  induction l with
  | nil => rfl
  | cons a as ih =>
    have ha : a ≠ ch := h a (List.mem_cons_self a as)
    simp only [List.contains_cons]
    rw [ih (fun c hc => h c (List.mem_cons_of_mem a hc))]
    simp [Ne.symm ha]

/-- A valid IPv4 string is never a valid IPv6 string: it has no `%`
and no `/`, and with no `:` the colon-split has a single piece, fewer
than the three parts IPv6 requires. -/
lemma parseIPv6_of_v4 {l : List Char} (h4 : (parseIPv4 l).isSome = true) :
    parseIPv6 l = Option.none := by
  have hsp := parseIPv4_no_specials h4
  have hslash : l.contains '/' = false := contains_eq_false (fun c hc => (hsp c hc).2.2)
  have hpct : splitFirst '%' l = Option.none := splitFirst_none (fun c hc => (hsp c hc).2.1)
  have hcolon : splitOnChar ':' l = [l] := splitOnChar_single (fun c hc => (hsp c hc).1)
  have hemp : l.isEmpty = false := by
    cases l with
    | nil => exact absurd h4 (by simp [parseIPv4])
    | cons a as => rfl
  have hv6 : ipv6IntFromString l = Option.none := by
    unfold ipv6IntFromString
    rw [hemp]
    simp only [Bool.false_eq_true, if_false]
    rw [hcolon]
    simp
  unfold parseIPv6
  rw [hslash]
  simp only [Bool.false_eq_true, if_false]
  unfold splitScope
  rw [hpct]
  show (match ipv6IntFromString l with
    | some v => some (v, (Option.none : Option String))
    | Option.none => (Option.none : Option (Nat × Option String))) = Option.none
  rw [hv6]

end AddressFamilyLemmas

/-- C5: `get_ip_version` classifies every string by the standard
address-family rules (embedded from CPython's `ipaddress`): it returns
4 exactly on valid IPv4 strings, 6 exactly on valid IPv6 strings,
nothing else on success, and raises `ValueError` exactly on the
strings that are neither. -/
theorem c5_version_classification (s : String) :
    (get_ip_version s = .ok 4 ↔ (parseIPv4 s.data).isSome = true)
    ∧ (get_ip_version s = .ok 6 ↔ (parseIPv6 s.data).isSome = true)
    ∧ ((∃ m, get_ip_version s = .error (.valueError m)) ↔
        (parseIPv4 s.data = Option.none ∧ parseIPv6 s.data = Option.none))
    ∧ (∀ n, get_ip_version s = .ok n → n = 4 ∨ n = 6) := by
  unfold get_ip_version ip_address
  cases h4 : parseIPv4 s.data with
  | some a =>
    have h6 : parseIPv6 s.data = Option.none := parseIPv6_of_v4 (by simp [h4])
    refine ⟨by simp [Except.map, ipVersion], ?_, by simp [Except.map], ?_⟩
    · rw [h6]
      simp [Except.map, ipVersion]
    · intro n hn
      simp only [Except.map, ipVersion, Except.ok.injEq] at hn
      exact Or.inl hn.symm
  | none =>
    cases h6 : parseIPv6 s.data with
    | some p =>
      obtain ⟨a, sc⟩ := p
      refine ⟨by simp [Except.map, ipVersion], by simp [Except.map, ipVersion], by simp [Except.map], ?_⟩
      intro n hn
      simp only [Except.map, ipVersion, Except.ok.injEq] at hn
      exact Or.inr hn.symm
    | none =>
      refine ⟨by simp [Except.map], by simp [Except.map], ?_, by simp [Except.map]⟩
      constructor
      · intro _; exact ⟨rfl, rfl⟩
      · intro _
        exact ⟨_, rfl⟩

/-- C5 witness: concrete classifications through the theorem. -/
theorem c5_version_classification_witness :
    get_ip_version "255.255.255.255" = .ok 4
    ∧ get_ip_version "2001:db8::1" = .ok 6 :=
  ⟨(c5_version_classification "255.255.255.255").1.mpr (by decide),
   (c5_version_classification "2001:db8::1").2.1.mpr (by decide)⟩

section VcardLemmas

/-- The property loop never raises when every 4-element property has a
hashable name. -/
lemma vcardProps_ok :
    ∀ (props : List PyVal) (acc : List (PyVal × PyVal)),
      props.all wfPropB = true → ∃ m, vcardProps props acc = .ok m := by
  intro props
  induction props with
  | nil => intro acc _; exact ⟨acc, rfl⟩
  | cons p rest ih =>
    intro acc hall
    have hp : wfPropB p = true := List.all_eq_true.mp hall p (List.mem_cons_self p rest)
    have hrest : rest.all wfPropB = true := by
      apply List.all_eq_true.mpr
      intro x hx
      exact List.all_eq_true.mp hall x (List.mem_cons_of_mem p hx)
    rcases p with _ | b | n | s | l | d
    · exact ih acc hrest
    · exact ih acc hrest
    · exact ih acc hrest
    · exact ih acc hrest
    · rcases l with _ | ⟨n, _ | ⟨q1, _ | ⟨q2, _ | ⟨q3, _ | rest4⟩⟩⟩⟩
      · exact ih acc hrest
      · exact ih acc hrest
      · exact ih acc hrest
      · exact ih acc hrest
      · have hh : isHashable n = true := by simpa [wfPropB] using hp
        simp only [vcardProps, hh, if_pos]
        exact ih _ hrest
      · exact ih acc hrest
    · exact ih acc hrest

/-- Properties that are not 4-element lists are skipped: filtering
them out does not change the loop's result. -/
lemma vcardProps_skip :
    ∀ (props : List PyVal) (acc : List (PyVal × PyVal)),
      vcardProps props acc = vcardProps (props.filter is4Elem) acc := by
  intro props
  induction props with
  | nil => intro acc; rfl
  | cons p rest ih =>
    intro acc
    rcases p with _ | b | n | s | l | d
    · simpa [List.filter, is4Elem] using ih acc
    · simpa [List.filter, is4Elem] using ih acc
    · simpa [List.filter, is4Elem] using ih acc
    · simpa [List.filter, is4Elem] using ih acc
    · rcases l with _ | ⟨n, _ | ⟨q1, _ | ⟨q2, _ | ⟨q3, _ | rest4⟩⟩⟩⟩
      · simpa [List.filter, is4Elem] using ih acc
      · simpa [List.filter, is4Elem] using ih acc
      · simpa [List.filter, is4Elem] using ih acc
      · simpa [List.filter, is4Elem] using ih acc
      · by_cases hh : isHashable n = true
        · simp only [vcardProps, hh, if_pos, List.filter, is4Elem]
          exact ih _
        · simp only [vcardProps, hh, List.filter, is4Elem]
          simp [hh]
      · simpa [List.filter, is4Elem] using ih acc
    · simpa [List.filter, is4Elem] using ih acc

end VcardLemmas

/-- C6 (amended): `parse_vcard_array` yields the empty mapping on every
input that is not a 2-element `["vcard", list]` structure, never raises
on well-shaped inputs whose 4-element properties carry hashable names
(non-4-element properties being skipped with the rest still parsed) —
but it is not total: a 4-element property whose name is itself a list
or dict makes Python's `result[name] = value` raise `TypeError` (see
the counterexample). -/
theorem c6_vcard_robustness :
    (∀ v, isTwoList v = false → parse_vcard_array v = .ok [])
    ∧ (∀ kind props, pyEq kind (.str "vcard") = false →
        parse_vcard_array (.list [kind, props]) = .ok [])
    ∧ (∀ kind props, isListVal props = false →
        parse_vcard_array (.list [kind, props]) = .ok [])
    ∧ (∀ props, props.all wfPropB = true →
        ∃ m, parse_vcard_array (.list [.str "vcard", .list props]) = .ok m)
    ∧ (∀ props acc, vcardProps props acc = vcardProps (props.filter is4Elem) acc) := by
  refine ⟨?_, ?_, ?_, ?_, vcardProps_skip⟩
  · intro v hv
    rcases v with _ | b | n | s | l | d
    · rfl
    · rfl
    · rfl
    · rfl
    · rcases l with _ | ⟨k, _ | ⟨p, _ | rest⟩⟩
      · rfl
      · rfl
      · exact absurd hv (by simp [isTwoList])
      · rfl
    · rfl
  · intro kind props h
    show (if pyEq kind (.str "vcard") = true then _ else Except.ok []) = Except.ok []
    rw [h]
    simp
  · intro kind props h
    cases hk : pyEq kind (.str "vcard") with
    | false =>
      show (if pyEq kind (.str "vcard") = true then _ else Except.ok []) = Except.ok []
      rw [hk]
      simp
    | true =>
      show (if pyEq kind (.str "vcard") = true then
        (match props with
          | PyVal.list props => vcardProps props []
          | _ => Except.ok []) else Except.ok []) = Except.ok []
      rw [hk]
      simp only [if_pos rfl]
      rcases props with _ | b | n | s | l | d
      · rfl
      · rfl
      · rfl
      · rfl
      · exact absurd h (by simp [isListVal])
      · rfl
  · intro props hall
    have := vcardProps_ok props [] hall
    simpa [parse_vcard_array, pyEq] using this

/-- C6 counterexample: a well-shaped vcardArray containing a 4-element
property whose name is a list raises `TypeError` instead of being
skipped or yielding an empty mapping. -/
theorem c6_counterexample :
    parse_vcard_array (.list [.str "vcard",
      .list [.list [.list [], .dict [], .str "text", .str "v"]]]) = .error .typeError := rfl

/-- C6 witness: a 3-element property is skipped without raising and a
non-"vcard" head yields the empty mapping. -/
theorem c6_vcard_robustness_witness :
    (∃ m, parse_vcard_array (.list [.str "vcard",
        .list [.list [.str "fn", .dict [], .str "text"]]]) = .ok m)
    ∧ parse_vcard_array (.list [.str "jcard", .list []]) = .ok [] :=
  ⟨c6_vcard_robustness.2.2.2.1 [.list [.str "fn", .dict [], .str "text"]] (by decide),
   c6_vcard_robustness.2.1 (.str "jcard") (.list []) (by decide)⟩

section DictLemmas

/-- Only a string equals a string under Python `==`. -/
lemma pyEq_str_iff (a : PyVal) (t : String) : pyEq a (.str t) = true ↔ a = .str t := by
  cases a <;> simp [pyEq]

/-- Looking up the key just stored yields the stored value. -/
lemma dictGet_dictSet_str_same (d : List (PyVal × PyVal)) (k : String) (v : PyVal) :
    dictGet (dictSet d (.str k) v) (.str k) = v := by
  induction d with
  | nil => simp [dictSet, dictGet, pyEq]
  | cons p rest ih =>
    obtain ⟨k2, v2⟩ := p
    by_cases hk : pyEq k2 (.str k) = true
    · simp [dictSet, dictGet, hk]
    · simp [dictSet, dictGet, hk, ih]

/-- Storing under one string key does not affect lookups of another. -/
lemma dictGet_dictSet_str_ne (d : List (PyVal × PyVal)) (n k : String) (v : PyVal)
    (hne : n ≠ k) :
    dictGet (dictSet d (.str n) v) (.str k) = dictGet d (.str k) := by
  induction d with
  | nil => simp [dictSet, dictGet, pyEq, hne]
  | cons p rest ih =>
    obtain ⟨k2, v2⟩ := p
    by_cases hk : pyEq k2 (.str n) = true
    · have hk2 : k2 = .str n := (pyEq_str_iff k2 n).mp hk
      subst hk2
      simp [dictSet, dictGet, hk, pyEq, hne]
    · by_cases hq : pyEq k2 (.str k) = true
      · simp [dictSet, dictGet, hk, hq]
      · simp [dictSet, dictGet, hk, hq, ih]

/-- `findSome?` over an append takes the first hit. -/
lemma findSome?_append {α β : Type} (l1 l2 : List α) (f : α → Option β) :
    (l1 ++ l2).findSome? f =
      (match l1.findSome? f with
        | some b => some b
        | Option.none => l2.findSome? f) := by
  induction l1 with
  | nil => simp [List.findSome?]
  | cons a l ih =>
    cases hf : f a <;> simp [List.findSome?_cons, hf, ih]

/-- Invariant of the property loop: the final mapping answers a string
key with the value of the last matching 4-element property, falling
back to the accumulator. -/
lemma vcardProps_lookup :
    ∀ (props : List PyVal) (acc m : List (PyVal × PyVal)) (key : String),
      props.all isStrProp = true →
      vcardProps props acc = .ok m →
      dictGet m (.str key) = (lastVal? props key).getD (dictGet acc (.str key)) := by
  intro props
  induction props with
  | nil =>
    intro acc m key _ hok
    simp only [vcardProps, Except.ok.injEq] at hok
    subst hok
    simp [lastVal?, List.findSome?]
  | cons p rest ih =>
    intro acc m key hstr hok
    have hsp : isStrProp p = true := List.all_eq_true.mp hstr p (List.mem_cons_self p rest)
    have hsr : rest.all isStrProp = true := by
      apply List.all_eq_true.mpr
      intro x hx
      exact List.all_eq_true.mp hstr x (List.mem_cons_of_mem p hx)
    have hskip : lastVal? [p] key = Option.none →
        vcardProps (p :: rest) acc = vcardProps rest acc →
        dictGet m (.str key) = (lastVal? (p :: rest) key).getD (dictGet acc (.str key)) := by
      intro hna hred
      rw [hred] at hok
      have hl : lastVal? (p :: rest) key = lastVal? rest key := by
        unfold lastVal?
        rw [List.reverse_cons, findSome?_append]
        cases hrest : List.findSome? (lastValSel key) rest.reverse with
        | some b => rfl
        | none => exact hna
      rw [hl]
      exact ih acc m key hsr hok
    rcases p with _ | b | n0 | s | l | d
    · exact hskip rfl rfl
    · exact hskip rfl rfl
    · exact hskip rfl rfl
    · exact hskip rfl rfl
    · rcases l with _ | ⟨n, _ | ⟨q1, _ | ⟨q2, _ | ⟨q3, _ | rest4⟩⟩⟩⟩
      · exact hskip rfl rfl
      · exact hskip (by rcases n with _ | _ | _ | _ | _ | _ <;> rfl)
          (by rcases n with _ | _ | _ | _ | _ | _ <;> rfl)
      · exact hskip (by rcases n with _ | _ | _ | _ | _ | _ <;> rfl)
          (by rcases n with _ | _ | _ | _ | _ | _ <;> rfl)
      · exact hskip (by rcases n with _ | _ | _ | _ | _ | _ <;> rfl)
          (by rcases n with _ | _ | _ | _ | _ | _ <;> rfl)
      · rcases n with _ | b | n0 | nm | l2 | d2
        · exact absurd hsp (by simp [isStrProp])
        · exact absurd hsp (by simp [isStrProp])
        · exact absurd hsp (by simp [isStrProp])
        · have hred : vcardProps (.list [.str nm, q1, q2, q3] :: rest) acc
              = vcardProps rest (dictSet acc (.str nm) q3) := by
            simp [vcardProps, isHashable]
          rw [hred] at hok
          have hrec := ih (dictSet acc (.str nm) q3) m key hsr hok
          unfold lastVal? at hrec ⊢
          rw [List.reverse_cons, findSome?_append]
          rcases Option.eq_none_or_eq_some (List.findSome? (lastValSel key) rest.reverse) with
            hlast | ⟨b, hlast⟩
          · rw [hlast] at hrec ⊢
            simp only [Option.getD_none] at hrec
            by_cases hkey : nm = key
            · subst hkey
              rw [hrec, dictGet_dictSet_str_same]
              simp [List.findSome?, lastValSel]
            · rw [hrec, dictGet_dictSet_str_ne _ _ _ _ hkey]
              simp [List.findSome?, lastValSel, hkey]
          · rw [hlast] at hrec ⊢
            simpa using hrec
        · exact absurd hsp (by simp [isStrProp])
        · exact absurd hsp (by simp [isStrProp])
      · exact hskip (by rcases n with _ | _ | _ | _ | _ | _ <;> rfl)
          (by rcases n with _ | _ | _ | _ | _ | _ <;> rfl)
    · exact hskip rfl rfl

end DictLemmas

/-- C7: in a well-shaped vcardArray (string property names), the
mapping answers each name with the value of the last 4-element
property carrying that name — straightforward overwrite, no
deduplication. -/
theorem c7_last_occurrence (props : List PyVal) (key : String) (m : List (PyVal × PyVal))
    (hstr : props.all isStrProp = true)
    (hok : parse_vcard_array (.list [.str "vcard", .list props]) = .ok m) :
    dictGet m (.str key) = (lastVal? props key).getD PyVal.none := by
  have hok2 : vcardProps props [] = .ok m := by
    simpa [parse_vcard_array, pyEq] using hok
  have h2 := vcardProps_lookup props [] m key hstr hok2
  simpa [dictGet] using h2

/-- C7 witness: two `fn` properties; the mapping holds the second
value. -/
theorem c7_last_occurrence_witness :
    [PyVal.list [.str "fn", .dict [], .str "text", .str "A"],
     PyVal.list [.str "fn", .dict [], .str "text", .str "B"]].all isStrProp = true
    ∧ parse_vcard_array (.list [.str "vcard",
        .list [.list [.str "fn", .dict [], .str "text", .str "A"],
               .list [.str "fn", .dict [], .str "text", .str "B"]]])
        = .ok [(.str "fn", .str "B")]
    ∧ dictGet [(.str "fn", .str "B")] (.str "fn")
        = (lastVal? [.list [.str "fn", .dict [], .str "text", .str "A"],
                     .list [.str "fn", .dict [], .str "text", .str "B"]] "fn").getD PyVal.none
    ∧ (lastVal? [.list [.str "fn", .dict [], .str "text", .str "A"],
                 .list [.str "fn", .dict [], .str "text", .str "B"]] "fn").getD PyVal.none
        = .str "B" :=
  ⟨by decide, rfl,
   c7_last_occurrence _ "fn" _ (by decide) rfl, rfl⟩

/-- C8 (amended): `get_vcard_name` returns the first truthy value
among the `fn`, `org`, `name`, `handle` lookups in that order; when
all four are falsy it returns the `handle` lookup's value — which is
falsy, and `None` whenever `handle` is absent or `None`, but not
necessarily `None` (see the counterexample). -/
theorem c8_name_priority (vcard : List (PyVal × PyVal)) :
    get_vcard_name vcard =
      (([dictGet vcard (.str "fn"), dictGet vcard (.str "org"),
         dictGet vcard (.str "name"), dictGet vcard (.str "handle")].find? pyTruthy).getD
        (dictGet vcard (.str "handle")))
    ∧ (pyTruthy (get_vcard_name vcard) = false ↔
        pyTruthy (dictGet vcard (.str "fn")) = false
        ∧ pyTruthy (dictGet vcard (.str "org")) = false
        ∧ pyTruthy (dictGet vcard (.str "name")) = false
        ∧ pyTruthy (dictGet vcard (.str "handle")) = false) := by
  by_cases h1 : pyTruthy (dictGet vcard (.str "fn")) = true <;>
  by_cases h2 : pyTruthy (dictGet vcard (.str "org")) = true <;>
  by_cases h3 : pyTruthy (dictGet vcard (.str "name")) = true <;>
  by_cases h4 : pyTruthy (dictGet vcard (.str "handle")) = true <;>
  simp_all [get_vcard_name, pyOr, List.find?]

/-- C8 counterexample: with `handle` mapped to the empty string, the
extractor returns `""`, not `None`, although no key has a non-empty
value. -/
theorem c8_counterexample :
    get_vcard_name [(.str "handle", .str "")] = .str ""
    ∧ PyVal.str "" ≠ PyVal.none
    ∧ pyTruthy (PyVal.str "") = false :=
  ⟨rfl, by simp, rfl⟩

/-- C9: in `all` mode `get_ip_info` returns exactly the sentence
`"<address> is an IPv<version> IP Address Registered by
'<registrant>'."`, where a missing registrant renders as the literal
text `None` (Python's f-string rendering of `None`); in particular
`93.184.216.34` with registrant "Example Org" yields exactly the
spec's sentence. -/
theorem c9_sentence_format :
    (∀ (s : String) (w : Nat → HttpOutcome) (ip : IPAddr) (r : PyVal),
      ip_address s = .ok ip → (get_ip_registrant w).result = .ok r →
      (get_ip_info s "all" w).1 = .ok (.str (ipToString ip ++ " is an IPv" ++
        natStr (ipVersion ip) ++ " IP Address Registered by '" ++ pyStr r ++ "'.")))
    ∧ pyStr PyVal.none = "None"
    ∧ (get_ip_info "93.184.216.34" "all" exWorld9).1
        = .ok (.str "93.184.216.34 is an IPv4 IP Address Registered by 'Example Org'.") := by
  refine ⟨?_, rfl, rfl⟩
  intro s w ip r h1 h2
  simp only [get_ip_info, h1, h2]
  rw [if_neg (by decide : ¬ ("all" : String) = "registrant"),
      if_neg (by decide : ¬ ("all" : String) = "version")]

/-- C9 witness: a failing network leaves the registrant `None` and the
sentence embeds the literal text `None`. -/
theorem c9_sentence_format_witness :
    ip_address "8.8.8.8" = .ok (.v4 134744072)
    ∧ (get_ip_registrant exnWorld).result = .ok PyVal.none
    ∧ (get_ip_info "8.8.8.8" "all" exnWorld).1
        = .ok (.str "8.8.8.8 is an IPv4 IP Address Registered by 'None'.") :=
  ⟨rfl, rfl, c9_sentence_format.1 "8.8.8.8" exnWorld (.v4 134744072) PyVal.none rfl rfl⟩

/-- C10: `get_ip_info` parses the address before the lookup — an
invalid address raises `ValueError` with no GET issued (empty event
trace) — and both the registrant-not-found message and the full
sentence embed the canonical textual form `str(ip)` of the parsed
address, not the raw input: `"2001:DB8::1"` is rendered
`"2001:db8::1"`. -/
theorem c10_canonical_address :
    (∀ (s f : String) (w : Nat → HttpOutcome) (e : PyErr),
      ip_address s = .error e → get_ip_info s f w = (.error e, []))
    ∧ (∀ (s : String) (e : PyErr), ip_address s = .error e → ∃ m, e = .valueError m)
    ∧ (∀ (s : String) (w : Nat → HttpOutcome) (ip : IPAddr) (r : PyVal),
        ip_address s = .ok ip → (get_ip_registrant w).result = .ok r → pyTruthy r = false →
        (get_ip_info s "registrant" w).1
          = .ok (.str ("registrant not found for IP Address " ++ ipToString ip)))
    ∧ (∀ (s : String) (w : Nat → HttpOutcome) (ip : IPAddr) (r : PyVal),
        ip_address s = .ok ip → (get_ip_registrant w).result = .ok r →
        (get_ip_info s "all" w).1 = .ok (.str (ipToString ip ++ " is an IPv" ++
          natStr (ipVersion ip) ++ " IP Address Registered by '" ++ pyStr r ++ "'.")))
    ∧ ip_address "2001:DB8::1" = .ok (.v6 42540766411282592856903984951653826561 Option.none)
    ∧ ipToString (.v6 42540766411282592856903984951653826561 Option.none) = "2001:db8::1"
    ∧ (get_ip_info "2001:DB8::1" "all" exnWorld).1
        = .ok (.str "2001:db8::1 is an IPv6 IP Address Registered by 'None'.") := by
  refine ⟨?_, ?_, ?_, ?_, rfl, rfl, rfl⟩
  · intro s f w e h
    simp only [get_ip_info, h]
  · intro s e h
    exact ip_address_error h
  · intro s w ip r h1 h2 hfalsy
    simp only [get_ip_info, h1, h2]
    simp only [if_true, pyOr, hfalsy, Bool.false_eq_true, if_false]
  · intro s w ip r h1 h2
    simp only [get_ip_info, h1, h2]
    rw [if_neg (by decide : ¬ ("all" : String) = "registrant"),
        if_neg (by decide : ¬ ("all" : String) = "version")]

/-- C10 witness: an invalid address raises before any GET, and a valid
one renders the canonical form in the not-found message. -/
theorem c10_canonical_address_witness :
    get_ip_info "abc" "all" exnWorld
        = (.error (.valueError "'abc' does not appear to be an IPv4 or IPv6 address"), [])
    ∧ (get_ip_info "10.0.0.1" "registrant" exnWorld).1
        = .ok (.str "registrant not found for IP Address 10.0.0.1") :=
  ⟨c10_canonical_address.1 "abc" "all" exnWorld
      (.valueError "'abc' does not appear to be an IPv4 or IPv6 address") rfl,
   c10_canonical_address.2.2.1 "10.0.0.1" exnWorld (.v4 167772161) PyVal.none rfl rfl rfl⟩

/-- C8 witness: with `org` present and `fn` absent, the extractor
returns the `org` value (priority order respected). -/
theorem c8_name_priority_witness :
    get_vcard_name [(.str "org", .str "Acme")]
      = (([dictGet [(.str "org", .str "Acme")] (.str "fn"),
           dictGet [(.str "org", .str "Acme")] (.str "org"),
           dictGet [(.str "org", .str "Acme")] (.str "name"),
           dictGet [(.str "org", .str "Acme")] (.str "handle")].find? pyTruthy).getD
          (dictGet [(.str "org", .str "Acme")] (.str "handle")))
    ∧ get_vcard_name [(.str "org", .str "Acme")] = .str "Acme" :=
  ⟨(c8_name_priority [(.str "org", .str "Acme")]).1, rfl⟩
